import Mathlib

/-!
# DevConnecter: `routes/api/profile.js`

A shallow embedding of the profile route handlers and of the JavaScript array and
string primitives they call, followed by theorems about the handlers.

Modelling conventions.

* Request body values are optional strings (`none` is JavaScript `undefined`).
* The document store is an in-memory pair of collections. `findOne` returns the
  first document matching the query, `save` on a loaded document writes it back in
  place, `save` on a fresh document appends it. Store failures are an explicit input
  of the one handler that inspects them (`getProfileByUserId`), where the cast of the
  queried identifier is modelled too.
* The auth gate and the identifier generator of the store layer are external: a
  gated handler receives the caller's identifier, an unshift receives the fresh
  identifier given to the new sub-document.
-/

namespace DevConnecter

/-! ## JavaScript array primitives -/

/-- `Array.prototype.unshift` with one argument. -/
def unshift {α : Type} (x : α) (xs : List α) : List α :=
  x :: xs

/-- Index of the first element equal to `x`, counted from `i`, or `-1`. -/
def indexOfFrom (x : String) : List String → Nat → Int
  | [], _ => -1
  | y :: ys, i => if y = x then (i : Int) else indexOfFrom x ys (i + 1)

/-- `Array.prototype.indexOf` (strict equality, search from index 0). -/
def indexOf (xs : List String) (x : String) : Int :=
  indexOfFrom x xs 0

/-- `Array.prototype.splice(start, deleteCount)` without inserted items: a negative
`start` counts from the end (clamped at 0), a `start` past the end is clamped to the
length, and at most the remaining elements are deleted. The result is the array
after the call. -/
def splice {α : Type} (xs : List α) (start : Int) (deleteCount : Nat) : List α :=
  let len : Int := xs.length
  let actualStart : Nat := if start < 0 then (max (len + start) 0).toNat else (min start len).toNat
  let actualDelete : Nat := min deleteCount (xs.length - actualStart)
  xs.take actualStart ++ xs.drop (actualStart + actualDelete)

/-! ## JavaScript string primitives -/

/-- Segments of a character sequence between occurrences of `sep`; `acc` holds the
current segment reversed. -/
def splitAux (sep : Char) : List Char → List Char → List (List Char)
  | [], acc => [acc.reverse]
  | c :: cs, acc => if c = sep then acc.reverse :: splitAux sep cs [] else splitAux sep cs (c :: acc)

/-- `String.prototype.split` with a one-character separator. The separator and the
white space of `trim` are single UTF-16 code units outside the surrogate range, so
splitting and trimming by character agrees with JavaScript's by code unit. -/
def split (s : String) (sep : Char) : List String :=
  (splitAux sep s.data []).map String.mk

/-- White space and line terminators stripped by `String.prototype.trim`. -/
def isWhiteSpace (c : Char) : Bool :=
  let n := c.toNat
  n = 0x09 || n = 0x0A || n = 0x0B || n = 0x0C || n = 0x0D || n = 0x20 || n = 0xA0 ||
  n = 0x1680 || (0x2000 ≤ n && n ≤ 0x200A) || n = 0x2028 || n = 0x2029 || n = 0x202F ||
  n = 0x205F || n = 0x3000 || n = 0xFEFF

/-- Character-level `trim`: drop white space at both ends. -/
def trimChars (cs : List Char) : List Char :=
  ((cs.dropWhile isWhiteSpace).reverse.dropWhile isWhiteSpace).reverse

/-- `String.prototype.trim`. -/
def trim (s : String) : String :=
  String.mk (trimChars s.data)

/-! ## Data model -/

/-- Entry of `profile.experience`. -/
structure Experience where
  id : String
  title : Option String
  company : Option String
  location : Option String
  «from» : Option String
  «to» : Option String
  current : Option String
  description : Option String
  deriving DecidableEq

/-- Entry of `profile.education`. -/
structure Education where
  id : String
  school : Option String
  degree : Option String
  fieldofstudy : Option String
  «from» : Option String
  «to» : Option String
  current : Option String
  description : Option String
  deriving DecidableEq

/-- The `social` record of a profile. -/
structure Social where
  youtube : Option String
  twitter : Option String
  facebook : Option String
  linkedin : Option String
  instagram : Option String
  deriving DecidableEq

/-- Profile document. -/
structure Profile where
  user : String
  handle : Option String
  company : Option String
  website : Option String
  location : Option String
  bio : Option String
  status : Option String
  githubusername : Option String
  skills : List String
  social : Social
  experience : List Experience
  education : List Education
  deriving DecidableEq

/-- User document. -/
structure User where
  id : String
  name : String
  avatar : String
  deriving DecidableEq

/-- The two collections of the document store. -/
structure Store where
  profiles : List Profile
  users : List User
  deriving DecidableEq

/-- What a handler sends back. -/
inductive Response where
  | json (profile : Profile)
  | jsonMsg (status : Nat) (msg : String)
  | jsonErrors (status : Nat) (errors : List String)
  | send (status : Nat) (text : String)
  deriving DecidableEq

/-! ## Store operations -/

/-- `Profile.findOne(\x7b user: uid \x7d)`: the first profile whose user reference is `uid`. -/
def findOne (profiles : List Profile) (uid : String) : Option Profile :=
  profiles.find? (fun p => p.user = uid)

/-- Replace the first document that satisfies `q` by its image under `f`. -/
def updateFirst (q : Profile → Bool) (f : Profile → Profile) : List Profile → List Profile
  | [] => []
  | p :: ps => if q p then f p :: ps else p :: updateFirst q f ps

/-- `profile.save()` for a document loaded by `findOne(\x7b user: uid \x7d)`: the loaded
document, which is the first match, is overwritten by its edited copy. -/
def saveLoaded (profiles : List Profile) (uid : String) (edited : Profile) : List Profile :=
  updateFirst (fun p => p.user = uid) (fun _ => edited) profiles

/-- Deletion of the first matching document of a collection. -/
def removeFirst {α : Type} (q : α → Bool) (docs : List α) : List α :=
  docs.eraseP q

/-- The catch block shared by the handlers. -/
def serverError : Response :=
  Response.send 500 "Server Error"

/-! ## `DELETE /experience/:exp_id` and `DELETE /education/:edu_id` -/

/-- Handler of `DELETE /experience/:exp_id` for the authenticated caller `uid`. A
missing profile makes `profile.experience` throw, which the catch block answers. -/
def deleteExperience (uid expId : String) (s : Store) : Store × Response :=
  match findOne s.profiles uid with
  | none => (s, serverError)
  | some profile =>
    let removeIndex := indexOf (profile.experience.map (fun item => item.id)) expId
    let profile1 := { profile with experience := splice profile.experience removeIndex 1 }
    ({ s with profiles := saveLoaded s.profiles uid profile1 }, Response.json profile1)

/-- Handler of `DELETE /education/:edu_id` for the authenticated caller `uid`. -/
def deleteEducation (uid eduId : String) (s : Store) : Store × Response :=
  match findOne s.profiles uid with
  | none => (s, serverError)
  | some profile =>
    let removeIndex := indexOf (profile.education.map (fun item => item.id)) eduId
    let profile1 := { profile with education := splice profile.education removeIndex 1 }
    ({ s with profiles := saveLoaded s.profiles uid profile1 }, Response.json profile1)

/-! ## Validation gate -/

/-- Outcome of `check(field, msg).not().isEmpty()` on a body value: the check passes
exactly for a value that is present and not the empty string. -/
def notEmpty : Option String → Bool
  | some v => decide (v ≠ "")
  | none => false

/-- `validationResult(req).array()` reduced to its messages: one message per failed
check, in the order the checks are declared. -/
def validationResult (checks : List (Option String × String)) : List String :=
  (checks.filter (fun c => !notEmpty c.1)).map (fun c => c.2)

/-- JavaScript truthiness of a body value that is a string or `undefined`. -/
def truthy : Option String → Bool
  | some v => decide (v ≠ "")
  | none => false

/-! ## `PUT /experience` and `PUT /education` -/

/-- Body of `PUT /experience`. -/
structure ExperienceBody where
  title : Option String
  company : Option String
  location : Option String
  «from» : Option String
  «to» : Option String
  current : Option String
  description : Option String
  deriving DecidableEq

/-- Body of `PUT /education`. -/
structure EducationBody where
  school : Option String
  degree : Option String
  fieldofstudy : Option String
  «from» : Option String
  «to» : Option String
  current : Option String
  description : Option String
  deriving DecidableEq

/-- The sub-document made from `newExp` when it enters `profile.experience`, with the
identifier the store layer gives it. -/
def newExp (id : String) (body : ExperienceBody) : Experience :=
  { id := id, title := body.title, company := body.company, location := body.location,
    «from» := body.«from», «to» := body.«to», current := body.current,
    description := body.description }

/-- The sub-document made from `newEdu` when it enters `profile.education`. -/
def newEdu (id : String) (body : EducationBody) : Education :=
  { id := id, school := body.school, degree := body.degree, fieldofstudy := body.fieldofstudy,
    «from» := body.«from», «to» := body.«to», current := body.current,
    description := body.description }

/-- Checks declared on `PUT /experience`. -/
def experienceChecks (body : ExperienceBody) : List (Option String × String) :=
  [(body.title, "Title is Required"), (body.company, "Company is Required"),
   (body.«from», "From date is required")]

/-- Checks declared on `PUT /education`. -/
def educationChecks (body : EducationBody) : List (Option String × String) :=
  [(body.school, "School is Required"), (body.degree, "Degree is Required"),
   (body.fieldofstudy, "Field of study is Required"), (body.«from», "From date is required")]

/-- Handler of `PUT /experience` for the authenticated caller `uid`; `freshId` is the
identifier assigned to the new entry. -/
def putExperience (uid freshId : String) (body : ExperienceBody) (s : Store) : Store × Response :=
  let errors := validationResult (experienceChecks body)
  if !errors.isEmpty then (s, Response.jsonErrors 400 errors)
  else
    match findOne s.profiles uid with
    | none => (s, serverError)
    | some profile =>
      let profile1 := { profile with experience := unshift (newExp freshId body) profile.experience }
      ({ s with profiles := saveLoaded s.profiles uid profile1 }, Response.json profile1)

/-- Handler of `PUT /education` for the authenticated caller `uid`. -/
def putEducation (uid freshId : String) (body : EducationBody) (s : Store) : Store × Response :=
  let errors := validationResult (educationChecks body)
  if !errors.isEmpty then (s, Response.jsonErrors 400 errors)
  else
    match findOne s.profiles uid with
    | none => (s, serverError)
    | some profile =>
      let profile1 := { profile with education := unshift (newEdu freshId body) profile.education }
      ({ s with profiles := saveLoaded s.profiles uid profile1 }, Response.json profile1)

/-! ## `POST /` -/

/-- Body of `POST /`. The `user` key stands for anything the client sends that the
handler never reads. -/
structure ProfileBody where
  user : Option String
  handle : Option String
  company : Option String
  website : Option String
  location : Option String
  bio : Option String
  status : Option String
  githubusername : Option String
  skills : Option String
  youtube : Option String
  twitter : Option String
  facebook : Option String
  linkedin : Option String
  instagram : Option String
  deriving DecidableEq

/-- The object `profileFields`: `user` and `social` are always set, every other key
only when the handler assigns it. -/
structure ProfileFields where
  user : String
  handle : Option String
  company : Option String
  website : Option String
  location : Option String
  bio : Option String
  status : Option String
  githubusername : Option String
  skills : Option (List String)
  social : Social
  deriving DecidableEq

/-- The right-hand side `cond ? value : absent` of `if (req.body.x) profileFields.x = req.body.x`. -/
def pick (v : Option String) : Option String :=
  if truthy v then v else none

/-- Lines 43 to 64: assembly of `profileFields` from the body. -/
def profileFields (uid : String) (body : ProfileBody) : ProfileFields :=
  { user := uid
    handle := pick body.handle
    company := pick body.company
    website := pick body.website
    location := pick body.location
    bio := pick body.bio
    status := pick body.status
    githubusername := pick body.githubusername
    skills := body.skills.map (fun skills => (split skills ',').map (fun skill => trim skill))
    social :=
      { youtube := pick body.youtube
        twitter := pick body.twitter
        facebook := pick body.facebook
        linkedin := pick body.linkedin
        instagram := pick body.instagram } }

/-- The update `\x7b $set: profileFields \x7d`: every key present in `profileFields`
replaces the value of that top-level field, `social` as a whole. -/
def setFields (f : ProfileFields) (p : Profile) : Profile :=
  { p with
    user := f.user
    handle := (f.handle <|> p.handle)
    company := (f.company <|> p.company)
    website := (f.website <|> p.website)
    location := (f.location <|> p.location)
    bio := (f.bio <|> p.bio)
    status := (f.status <|> p.status)
    githubusername := (f.githubusername <|> p.githubusername)
    skills := f.skills.getD p.skills
    social := f.social }

/-- The document `new Profile(profileFields)`: absent keys stay unset and the two
entry sequences start empty. -/
def newProfile (f : ProfileFields) : Profile :=
  { user := f.user, handle := f.handle, company := f.company, website := f.website,
    location := f.location, bio := f.bio, status := f.status,
    githubusername := f.githubusername, skills := f.skills.getD [], social := f.social,
    experience := [], education := [] }

/-- Checks declared on `POST /`. -/
def profileChecks (body : ProfileBody) : List (Option String × String) :=
  [(body.status, "Status is required"), (body.skills, "Skills is required")]

/-- Handler of `POST /` for the authenticated caller `uid`. -/
def postProfile (uid : String) (body : ProfileBody) (s : Store) : Store × Response :=
  let errors := validationResult (profileChecks body)
  if !errors.isEmpty then (s, Response.jsonErrors 400 errors)
  else
    let fields := profileFields uid body
    match findOne s.profiles uid with
    | some profile =>
      ({ s with profiles := updateFirst (fun p => p.user = uid) (setFields fields) s.profiles },
        Response.json (setFields fields profile))
    | none =>
      let profile := newProfile fields
      ({ s with profiles := s.profiles ++ [profile] }, Response.json profile)

/-! ## `GET /user/:user_id` -/

/-- Error object thrown by the store layer. -/
structure StoreError where
  kind : Option String
  message : String
  deriving DecidableEq

/-- What the route of `GET /user/:user_id` sends: the profile with its `user`
reference populated by the owner's `name` and `avatar`, or an error answer. -/
inductive LookupResponse where
  | json (profile : Profile) (owner : Option (String × String))
  | jsonMsg (status : Nat) (msg : String)
  | send (status : Nat) (text : String)
  deriving DecidableEq

/-- Hexadecimal digit. -/
def isHexDigit (c : Char) : Bool :=
  ('0' ≤ c && c ≤ '9') || ('a' ≤ c && c ≤ 'f') || ('A' ≤ c && c ≤ 'F')

/-- Strings the store layer (mongoose over bson, outside the repository) takes as a
document identifier: 24 hexadecimal digits, or any 12 characters. -/
def isObjectIdString (value : String) : Bool :=
  (value.length = 24 && value.data.all isHexDigit) || value.length = 12

/-- The error the store layer throws when the value queried on an identifier path
is not an identifier: a cast error whose `kind` is `ObjectId`. -/
def castError : StoreError :=
  { kind := some "ObjectId", message := "Cast to ObjectId failed" }

/-- `Profile.findOne(\x7b user \x7d).populate('user', ['name','avatar'])`: the store layer
first casts the queried value and throws the cast error on a malformed identifier;
otherwise the store either throws `fault` (any other failure) or returns the first
matching profile with its owner joined in. -/
def findOnePopulated (fault : Option StoreError) (s : Store) (userId : String) :
    Except StoreError (Option (Profile × Option (String × String))) :=
  if isObjectIdString userId then
    match fault with
    | some err => Except.error err
    | none =>
      Except.ok ((findOne s.profiles userId).map (fun p =>
        (p, (s.users.find? (fun u => u.id = p.user)).map (fun u => (u.name, u.avatar)))))
  else Except.error castError

/-- Handler of `GET /user/:user_id`. -/
def getProfileByUserId (fault : Option StoreError) (userId : String) (s : Store) : LookupResponse :=
  match findOnePopulated fault s userId with
  | Except.ok none => LookupResponse.jsonMsg 400 "Profile not found"
  | Except.ok (some (profiles, owner)) => LookupResponse.json profiles owner
  | Except.error err =>
    if err.kind = some "ObjectID" then LookupResponse.jsonMsg 400 "Profile not found"
    else LookupResponse.send 500 "Server Error"

/-! ## `DELETE /` -/

/-- The models a name of the module can be bound to. -/
inductive Model where
  | profileModel
  | usersModel
  deriving DecidableEq

/-- Bindings made at the top of the module (lines 8 and 9): `Profile` and `user`.
Any other name is unbound. -/
def moduleScope (name : String) : Option Model :=
  if name = "Profile" then some Model.profileModel
  else if name = "user" then some Model.usersModel
  else none

/-- `findOneAndRemove` on the collection behind a model, with the value the query
compares against: the `user` reference of a profile, the `_id` of a user. -/
def Model.findOneAndRemove (m : Model) (value : String) (s : Store) : Store :=
  match m with
  | Model.profileModel => { s with profiles := removeFirst (fun p => p.user = value) s.profiles }
  | Model.usersModel => { s with users := removeFirst (fun u => u.id = value) s.users }

/-- Handler of `DELETE /`. The route is registered without the auth gate, so
`req.user` may be `undefined` (`none`), and reading `req.user.id` then throws. The
handler names `Profile` and `User`; evaluating an unbound name throws. Every throw
lands in the catch block. -/
def deleteAccount (reqUser : Option String) (s : Store) : Store × Response :=
  match reqUser with
  | none => (s, serverError)
  | some id =>
    match moduleScope "Profile" with
    | none => (s, serverError)
    | some profileRef =>
      let s1 := profileRef.findOneAndRemove id s
      match moduleScope "User" with
      | none => (s1, serverError)
      | some userRef => (userRef.findOneAndRemove id s1, Response.jsonMsg 200 "User Removed")

/-! ## Specification-side predicates -/

/-- Wording of the removal law: `ys` is `xs` without its first element whose key is
`k`, every other element staying where it was relative to the others. -/
def RemovedFirst {α : Type} (key : α → String) (k : String) (xs ys : List α) : Prop :=
  ∃ pre e post, xs = pre ++ e :: post ∧ key e = k ∧ (∀ x ∈ pre, key x ≠ k) ∧ ys = pre ++ post

/-- Concatenation of segments with `sep` between neighbours (what
`Array.prototype.join` does, character-wise). -/
def joinWith (sep : Char) : List (List Char) → List Char
  | [] => []
  | [seg] => seg
  | seg :: next :: rest => seg ++ sep :: joinWith sep (next :: rest)

/-- Wording of the split law: `segs` are the `sep`-separated segments of `s`, in
order: there is at least one, none holds `sep`, and putting `sep` back between
neighbours gives `s`. -/
def IsSegmentsOf (sep : Char) (s : List Char) (segs : List (List Char)) : Prop :=
  segs ≠ [] ∧ (∀ seg ∈ segs, sep ∉ seg) ∧ joinWith sep segs = s

/-- Wording of the trim law: `t` is `x` with its leading and trailing white space
removed: `x` is `t` between two runs of white space, and `t` neither starts nor ends
with white space. -/
def IsTrimOf (x t : List Char) : Prop :=
  ∃ l r, x = l ++ t ++ r ∧ (∀ c ∈ l, isWhiteSpace c = true) ∧ (∀ c ∈ r, isWhiteSpace c = true) ∧
    (∀ c, t.head? = some c → isWhiteSpace c = false) ∧
    (∀ c, t.getLast? = some c → isWhiteSpace c = false)

/-! ## Sample documents -/

/-- An experience entry. -/
def expEng : Experience :=
  { id := "e1", title := some "Eng", company := some "Acme", location := none,
    «from» := some "2020-01-01", «to» := none, current := none, description := none }

/-- A second experience entry. -/
def expOps : Experience :=
  { id := "e2", title := some "Ops", company := some "Initech", location := some "Pune",
    «from» := some "2018-06-01", «to» := some "2019-12-31", current := none, description := none }

/-- An education entry. -/
def eduBsc : Education :=
  { id := "d1", school := some "MIT", degree := some "BSc", fieldofstudy := some "CS",
    «from» := some "2014-09-01", «to» := some "2018-05-31", current := none, description := none }

/-- A second education entry. -/
def eduMsc : Education :=
  { id := "d2", school := some "ETH", degree := some "MSc", fieldofstudy := some "Robotics",
    «from» := some "2018-09-01", «to» := none, current := some "true", description := none }

/-- Profile of user `u1`, with two entries in each sequence and two social links. -/
def profileU1 : Profile :=
  { user := "u1", handle := some "alice", company := some "Acme", website := none,
    location := some "Pune", bio := none, status := some "Developer",
    githubusername := some "alice-gh", skills := ["js", "node"],
    social := { youtube := some "yt/alice", twitter := some "tw/alice", facebook := none,
                linkedin := none, instagram := none },
    experience := [expEng, expOps], education := [eduBsc, eduMsc] }

/-- Profile of user `u2`. -/
def profileU2 : Profile :=
  { user := "u2", handle := none, company := none, website := none, location := none,
    bio := none, status := some "Student", githubusername := none, skills := ["c"],
    social := { youtube := none, twitter := none, facebook := none, linkedin := none,
                instagram := none },
    experience := [], education := [] }

/-- A store with three users, two of whom have a profile. -/
def sampleStore : Store :=
  { profiles := [profileU2, profileU1],
    users := [{ id := "u1", name := "Alice", avatar := "a.png" },
              { id := "u2", name := "Bob", avatar := "b.png" },
              { id := "u3", name := "Cara", avatar := "c.png" }] }

/-- A body for `PUT /experience` that passes validation. -/
def bodyExp : ExperienceBody :=
  { title := some "Lead", company := some "Globex", location := none,
    «from» := some "2021-02-01", «to» := none, current := some "true", description := none }

/-- A second body for `PUT /experience` that passes validation. -/
def bodyExp2 : ExperienceBody :=
  { title := some "CTO", company := some "Hooli", location := some "Goa",
    «from» := some "2023-01-01", «to» := none, current := none, description := some "all of it" }

/-- A body for `PUT /education` that passes validation. -/
def bodyEdu : EducationBody :=
  { school := some "IISc", degree := some "PhD", fieldofstudy := some "ML",
    «from» := some "2020-08-01", «to» := none, current := none, description := none }

/-- A second body for `PUT /education` that passes validation. -/
def bodyEdu2 : EducationBody :=
  { school := some "TIFR", degree := some "PostDoc", fieldofstudy := some "Theory",
    «from» := some "2024-08-01", «to» := none, current := none, description := none }

/-- A body for `POST /` with only the two required fields, and a `user` key the
handler never reads. -/
def bodyMinimal : ProfileBody :=
  { user := some "u2", handle := none, company := none, website := none, location := none,
    bio := none, status := some "Developer", githubusername := none, skills := some "a, b ,c",
    youtube := none, twitter := none, facebook := none, linkedin := none, instagram := none }

/-! ## Lemmas on the array primitives -/

theorem indexOfFrom_not_mem (x : String) (ys : List String) (i : Nat) (h : x ∉ ys) :
    indexOfFrom x ys i = -1 := by
  induction ys generalizing i with
  | nil => rfl
  | cons y ys ih =>
    have hy : y ≠ x := fun e => h (by simp [e])
    have hys : x ∉ ys := fun m => h (by simp [m])
    simp [indexOfFrom, hy, ih (i + 1) hys]

theorem indexOfFrom_first (x : String) (pre post : List String) (i : Nat) (h : x ∉ pre) :
    indexOfFrom x (pre ++ x :: post) i = ((i + pre.length : Nat) : Int) := by
  induction pre generalizing i with
  | nil => simp [indexOfFrom]
  | cons y ys ih =>
    have hy : y ≠ x := fun e => h (by simp [e])
    have hys : x ∉ ys := fun m => h (by simp [m])
    have step := ih (i + 1) hys
    simp only [List.cons_append, indexOfFrom, hy, if_false, List.length_cons]
    refine step.trans ?_
    congr 1
    omega

theorem splice_at_first {α : Type} (pre post : List α) (e : α) :
    splice (pre ++ e :: post) (pre.length : Int) 1 = pre ++ post := by
  have h1 : ¬ ((pre.length : Int) < 0) := by omega
  have h2 : (min (pre.length : Int) ((pre ++ e :: post).length : Int)).toNat = pre.length := by
    simp only [List.length_append, List.length_cons]
    omega
  have h3 : min 1 ((pre ++ e :: post).length - pre.length) = 1 := by
    simp only [List.length_append, List.length_cons]
    omega
  simp only [splice, h1, if_false, h2, h3]
  simp [List.take_append_eq_append_take, List.drop_append_eq_append_drop]

theorem splice_neg_one {α : Type} (xs : List α) : splice xs (-1) 1 = xs.dropLast := by
  cases xs with
  | nil => rfl
  | cons x xs =>
    have h1 : ((-1 : Int) < 0) := by omega
    have h2 : (max (((x :: xs).length : Int) + -1) 0).toNat = xs.length := by
      simp only [List.length_cons]
      omega
    have h3 : min 1 ((x :: xs).length - xs.length) = 1 := by
      simp only [List.length_cons]
      omega
    simp only [splice, h1, if_true, h2, h3]
    have h4 : List.drop (xs.length + 1) (x :: xs) = [] := by simp
    rw [h4, List.append_nil, List.dropLast_eq_take]
    simp

theorem exists_first_match {α : Type} (key : α → String) (k : String) (xs : List α)
    (h : ∃ e ∈ xs, key e = k) :
    ∃ pre e post, xs = pre ++ e :: post ∧ key e = k ∧ ∀ x ∈ pre, key x ≠ k := by
  induction xs with
  | nil => simp at h
  | cons y ys ih =>
    by_cases hy : key y = k
    · exact ⟨[], y, ys, rfl, hy, by simp⟩
    · have h2 : ∃ e ∈ ys, key e = k := by
        obtain ⟨e, he, hk⟩ := h
        rcases List.mem_cons.mp he with rfl | he2
        · exact absurd hk hy
        · exact ⟨e, he2, hk⟩
      obtain ⟨pre, e, post, hxs, hk, hpre⟩ := ih h2
      refine ⟨y :: pre, e, post, by simp [hxs], hk, ?_⟩
      intro x hx
      rcases List.mem_cons.mp hx with rfl | hx2
      · exact hy
      · exact hpre x hx2

/-- The removal step of the delete handlers on a sequence that holds the key. -/
theorem splice_indexOf_present {α : Type} (key : α → String) (k : String) (pre post : List α)
    (e : α) (hk : key e = k) (hpre : ∀ x ∈ pre, key x ≠ k) :
    splice (pre ++ e :: post) (indexOf ((pre ++ e :: post).map key) k) 1 = pre ++ post := by
  have hnot : k ∉ pre.map key := by
    intro hm
    obtain ⟨x, hx, hxk⟩ := List.mem_map.mp hm
    exact hpre x hx hxk
  have hidx : indexOf ((pre ++ e :: post).map key) k = (pre.length : Int) := by
    have := indexOfFrom_first k (pre.map key) (post.map key) 0 hnot
    simp only [indexOf, List.map_append, List.map_cons, hk]
    simpa using this
  rw [hidx, splice_at_first]

/-- The removal step of the delete handlers on a sequence that lacks the key. -/
theorem splice_indexOf_absent {α : Type} (key : α → String) (k : String) (xs : List α)
    (h : ∀ x ∈ xs, key x ≠ k) :
    splice xs (indexOf (xs.map key) k) 1 = xs.dropLast := by
  have hnot : k ∉ xs.map key := by
    intro hm
    obtain ⟨x, hx, hxk⟩ := List.mem_map.mp hm
    exact h x hx hxk
  rw [indexOf, indexOfFrom_not_mem k _ 0 hnot, splice_neg_one]

/-! ## Lemmas on the store -/

theorem findOne_user (ps : List Profile) (uid : String) (p : Profile)
    (h : findOne ps uid = some p) : p.user = uid := by
  have := List.find?_some h
  simpa using this

theorem findOne_updateFirst (uid : String) (f : Profile → Profile)
    (hf : ∀ p, p.user = uid → (f p).user = uid) (ps : List Profile) :
    findOne (updateFirst (fun p => p.user = uid) f ps) uid = (findOne ps uid).map f := by
  induction ps with
  | nil => rfl
  | cons q qs ih =>
    by_cases hq : q.user = uid
    · simp [updateFirst, findOne, hq, hf q hq]
    · simp only [findOne] at ih
      simp [updateFirst, findOne, hq, ih]

theorem findOne_saveLoaded (ps : List Profile) (uid : String) (p edited : Profile)
    (hp : findOne ps uid = some p) (he : edited.user = uid) :
    findOne (saveLoaded ps uid edited) uid = some edited := by
  rw [saveLoaded, findOne_updateFirst uid (fun _ => edited) (fun _ _ => he), hp]
  rfl

theorem updateFirst_same (uid : String) (ps : List Profile) (p : Profile)
    (hp : findOne ps uid = some p) :
    updateFirst (fun q => q.user = uid) (fun _ => p) ps = ps := by
  induction ps with
  | nil => rfl
  | cons q qs ih =>
    by_cases hq : q.user = uid
    · have hqp : q = p := by simpa [findOne, hq] using hp
      subst hqp
      simp [updateFirst, hq]
    · have hp2 : findOne qs uid = some p := by simpa [findOne, hq] using hp
      simp [updateFirst, hq, ih hp2]

theorem updateFirst_updateFirst (uid : String) (a b : Profile) (ha : a.user = uid)
    (ps : List Profile) :
    updateFirst (fun q => q.user = uid) (fun _ => b)
      (updateFirst (fun q => q.user = uid) (fun _ => a) ps) =
    updateFirst (fun q => q.user = uid) (fun _ => b) ps := by
  induction ps with
  | nil => rfl
  | cons q qs ih =>
    by_cases hq : q.user = uid
    · simp [updateFirst, hq, ha]
    · simp [updateFirst, hq, ih]

/-! ## Removal of an entry -/

/-- Claim C1, evaluated on the code: `DELETE /experience/nope` for user `u1`, whose
experience sequence `[e1, e2]` holds no entry with identifier `nope`, does not leave
the sequence as it was: `indexOf` yields `-1`, `splice(-1, 1)` deletes the last
entry, and the profile is saved and returned with the sequence `[e1]`. The same
happens to the education sequence under `DELETE /education/nope`. -/
theorem delete_unknown_id_drops_last_entry :
    (∀ e ∈ profileU1.experience, e.id ≠ "nope") ∧
    findOne sampleStore.profiles "u1" = some profileU1 ∧
    indexOf (profileU1.experience.map (fun item => item.id)) "nope" = -1 ∧
    (deleteExperience "u1" "nope" sampleStore).2 =
      Response.json { profileU1 with experience := [expEng] } ∧
    findOne (deleteExperience "u1" "nope" sampleStore).1.profiles "u1" =
      some { profileU1 with experience := [expEng] } ∧
    (∀ e ∈ profileU1.education, e.id ≠ "nope") ∧
    (deleteEducation "u1" "nope" sampleStore).2 =
      Response.json { profileU1 with education := [eduBsc] } ∧
    findOne (deleteEducation "u1" "nope" sampleStore).1.profiles "u1" =
      some { profileU1 with education := [eduBsc] } := by
  decide

/-- On a sequence without the requested identifier the delete handlers save the
sequence without its last entry (the general form of the behaviour above). -/
theorem deleteExperience_absent (uid expId : String) (s : Store) (p : Profile)
    (hp : findOne s.profiles uid = some p) (h : ∀ e ∈ p.experience, e.id ≠ expId) :
    (deleteExperience uid expId s).2 =
      Response.json { p with experience := p.experience.dropLast } := by
  simp only [deleteExperience, hp]
  rw [splice_indexOf_absent Experience.id expId p.experience h]

/-- Claim C2: when the caller's profile holds an entry with the requested identifier,
`DELETE /experience/:exp_id` answers with, and stores, the profile whose experience
sequence is the old one without its first matching entry: one entry shorter, the
other entries in their old relative order. The same holds for
`DELETE /education/:edu_id` and the education sequence. -/
theorem delete_present_id_removes_first_match (uid entryId : String) (s : Store) (p : Profile)
    (hp : findOne s.profiles uid = some p) :
    ((∃ e ∈ p.experience, e.id = entryId) →
      ∃ p1, (deleteExperience uid entryId s).2 = Response.json p1 ∧
        findOne (deleteExperience uid entryId s).1.profiles uid = some p1 ∧
        RemovedFirst Experience.id entryId p.experience p1.experience ∧
        p1.experience.length = p.experience.length - 1 ∧
        p1.experience.Sublist p.experience ∧
        p1 = { p with experience := p1.experience }) ∧
    ((∃ e ∈ p.education, e.id = entryId) →
      ∃ p1, (deleteEducation uid entryId s).2 = Response.json p1 ∧
        findOne (deleteEducation uid entryId s).1.profiles uid = some p1 ∧
        RemovedFirst Education.id entryId p.education p1.education ∧
        p1.education.length = p.education.length - 1 ∧
        p1.education.Sublist p.education ∧
        p1 = { p with education := p1.education }) := by
  have hu := findOne_user _ _ _ hp
  constructor
  · intro hx
    obtain ⟨pre, e, post, hxs, hk, hpre⟩ := exists_first_match Experience.id entryId _ hx
    have hs := splice_indexOf_present Experience.id entryId pre post e hk hpre
    rw [← hxs] at hs
    refine ⟨{ p with experience := pre ++ post }, ?_, ?_, ⟨pre, e, post, hxs, hk, hpre, rfl⟩,
      ?_, ?_, rfl⟩
    · simp only [deleteExperience, hp]
      rw [hs]
    · simp only [deleteExperience, hp]
      rw [hs]
      exact findOne_saveLoaded _ _ p _ hp hu
    · simp [hxs]
    · rw [hxs]
      exact List.Sublist.append_left (List.sublist_cons_self e post) pre
  · intro hx
    obtain ⟨pre, e, post, hxs, hk, hpre⟩ := exists_first_match Education.id entryId _ hx
    have hs := splice_indexOf_present Education.id entryId pre post e hk hpre
    rw [← hxs] at hs
    refine ⟨{ p with education := pre ++ post }, ?_, ?_, ⟨pre, e, post, hxs, hk, hpre, rfl⟩,
      ?_, ?_, rfl⟩
    · simp only [deleteEducation, hp]
      rw [hs]
    · simp only [deleteEducation, hp]
      rw [hs]
      exact findOne_saveLoaded _ _ p _ hp hu
    · simp [hxs]
    · rw [hxs]
      exact List.Sublist.append_left (List.sublist_cons_self e post) pre

/-- Claim C2 at user `u1` of the sample store: deleting experience `e1` and
education `d1`, both present. -/
theorem delete_present_id_removes_first_match_witness :
    findOne sampleStore.profiles "u1" = some profileU1 ∧
    (∃ e ∈ profileU1.experience, e.id = "e1") ∧
    (∃ e ∈ profileU1.education, e.id = "d1") ∧
    (∃ p1, (deleteExperience "u1" "e1" sampleStore).2 = Response.json p1 ∧
        findOne (deleteExperience "u1" "e1" sampleStore).1.profiles "u1" = some p1 ∧
        RemovedFirst Experience.id "e1" profileU1.experience p1.experience ∧
        p1.experience.length = profileU1.experience.length - 1 ∧
        p1.experience.Sublist profileU1.experience ∧
        p1 = { profileU1 with experience := p1.experience }) ∧
    (∃ p1, (deleteEducation "u1" "d1" sampleStore).2 = Response.json p1 ∧
        findOne (deleteEducation "u1" "d1" sampleStore).1.profiles "u1" = some p1 ∧
        RemovedFirst Education.id "d1" profileU1.education p1.education ∧
        p1.education.length = profileU1.education.length - 1 ∧
        p1.education.Sublist profileU1.education ∧
        p1 = { profileU1 with education := p1.education }) :=
  have hp : findOne sampleStore.profiles "u1" = some profileU1 := by decide
  have hx : ∃ e ∈ profileU1.experience, e.id = "e1" := ⟨expEng, by decide, by decide⟩
  have hd : ∃ e ∈ profileU1.education, e.id = "d1" := ⟨eduBsc, by decide, by decide⟩
  ⟨hp, hx, hd,
    (delete_present_id_removes_first_match "u1" "e1" sampleStore profileU1 hp).1 hx,
    (delete_present_id_removes_first_match "u1" "d1" sampleStore profileU1 hp).2 hd⟩

/-! ## Addition of an entry -/

theorem putExperience_ok (uid freshId : String) (b : ExperienceBody) (s : Store) (p : Profile)
    (hp : findOne s.profiles uid = some p) (hv : validationResult (experienceChecks b) = []) :
    putExperience uid freshId b s =
      ({ s with profiles :=
          saveLoaded s.profiles uid { p with experience := newExp freshId b :: p.experience } },
        Response.json { p with experience := newExp freshId b :: p.experience }) := by
  simp [putExperience, hv, hp, unshift]

theorem putEducation_ok (uid freshId : String) (b : EducationBody) (s : Store) (p : Profile)
    (hp : findOne s.profiles uid = some p) (hv : validationResult (educationChecks b) = []) :
    putEducation uid freshId b s =
      ({ s with profiles :=
          saveLoaded s.profiles uid { p with education := newEdu freshId b :: p.education } },
        Response.json { p with education := newEdu freshId b :: p.education }) := by
  simp [putEducation, hv, hp, unshift]

/-- Claim C3 (prepend law): on an existing profile with experience sequence `xs`,
`PUT /experience` with a valid `b1` and then with a valid `b2` answers with, and
stores, a profile whose experience sequence is `[E2, E1] ++ xs`, where `E1` carries
the seven fields of `b1` under the identifier given to it and `E2` those of `b2`;
the newest entry is at index 0. The same holds for `PUT /education` and the
education sequence. -/
theorem put_twice_prepends_newest_first (uid id1 id2 : String) (s : Store) (p : Profile)
    (hp : findOne s.profiles uid = some p) :
    (∀ b1 b2 : ExperienceBody, validationResult (experienceChecks b1) = [] →
      validationResult (experienceChecks b2) = [] →
      ∃ p2, (putExperience uid id2 b2 (putExperience uid id1 b1 s).1).2 = Response.json p2 ∧
        findOne (putExperience uid id2 b2 (putExperience uid id1 b1 s).1).1.profiles uid = some p2 ∧
        p2.experience =
          [{ id := id2, title := b2.title, company := b2.company, location := b2.location,
             «from» := b2.«from», «to» := b2.«to», current := b2.current,
             description := b2.description },
           { id := id1, title := b1.title, company := b1.company, location := b1.location,
             «from» := b1.«from», «to» := b1.«to», current := b1.current,
             description := b1.description }] ++ p.experience ∧
        p2.experience[0]? =
          some { id := id2, title := b2.title, company := b2.company, location := b2.location,
                 «from» := b2.«from», «to» := b2.«to», current := b2.current,
                 description := b2.description } ∧
        p2 = { p with experience := p2.experience }) ∧
    (∀ b1 b2 : EducationBody, validationResult (educationChecks b1) = [] →
      validationResult (educationChecks b2) = [] →
      ∃ p2, (putEducation uid id2 b2 (putEducation uid id1 b1 s).1).2 = Response.json p2 ∧
        findOne (putEducation uid id2 b2 (putEducation uid id1 b1 s).1).1.profiles uid = some p2 ∧
        p2.education =
          [{ id := id2, school := b2.school, degree := b2.degree, fieldofstudy := b2.fieldofstudy,
             «from» := b2.«from», «to» := b2.«to», current := b2.current,
             description := b2.description },
           { id := id1, school := b1.school, degree := b1.degree, fieldofstudy := b1.fieldofstudy,
             «from» := b1.«from», «to» := b1.«to», current := b1.current,
             description := b1.description }] ++ p.education ∧
        p2.education[0]? =
          some { id := id2, school := b2.school, degree := b2.degree, fieldofstudy := b2.fieldofstudy,
                 «from» := b2.«from», «to» := b2.«to», current := b2.current,
                 description := b2.description } ∧
        p2 = { p with education := p2.education }) := by
  have hu := findOne_user _ _ _ hp
  constructor
  · intro b1 b2 h1 h2
    have e1 := putExperience_ok uid id1 b1 s p hp h1
    have hp1 : findOne (putExperience uid id1 b1 s).1.profiles uid =
        some { p with experience := newExp id1 b1 :: p.experience } := by
      rw [e1]
      exact findOne_saveLoaded _ _ p _ hp hu
    have e2 := putExperience_ok uid id2 b2 _ _ hp1 h2
    refine ⟨{ p with experience := [newExp id2 b2, newExp id1 b1] ++ p.experience }, ?_, ?_,
      rfl, rfl, rfl⟩
    · rw [e2]; rfl
    · rw [e2]
      exact findOne_saveLoaded _ _ _ _ hp1 hu
  · intro b1 b2 h1 h2
    have e1 := putEducation_ok uid id1 b1 s p hp h1
    have hp1 : findOne (putEducation uid id1 b1 s).1.profiles uid =
        some { p with education := newEdu id1 b1 :: p.education } := by
      rw [e1]
      exact findOne_saveLoaded _ _ p _ hp hu
    have e2 := putEducation_ok uid id2 b2 _ _ hp1 h2
    refine ⟨{ p with education := [newEdu id2 b2, newEdu id1 b1] ++ p.education }, ?_, ?_,
      rfl, rfl, rfl⟩
    · rw [e2]; rfl
    · rw [e2]
      exact findOne_saveLoaded _ _ _ _ hp1 hu

/-- Claim C3 at user `u1` of the sample store, whose sequences are `[e1, e2]` and
`[d1, d2]`. -/
theorem put_twice_prepends_newest_first_witness :
    findOne sampleStore.profiles "u1" = some profileU1 ∧
    validationResult (experienceChecks bodyExp) = [] ∧
    validationResult (experienceChecks bodyExp2) = [] ∧
    validationResult (educationChecks bodyEdu) = [] ∧
    validationResult (educationChecks bodyEdu2) = [] ∧
    (∃ p2, (putExperience "u1" "n2" bodyExp2 (putExperience "u1" "n1" bodyExp sampleStore).1).2 =
          Response.json p2 ∧
        findOne (putExperience "u1" "n2" bodyExp2
          (putExperience "u1" "n1" bodyExp sampleStore).1).1.profiles "u1" = some p2 ∧
        p2.experience =
          [{ id := "n2", title := some "CTO", company := some "Hooli", location := some "Goa",
             «from» := some "2023-01-01", «to» := none, current := none,
             description := some "all of it" },
           { id := "n1", title := some "Lead", company := some "Globex", location := none,
             «from» := some "2021-02-01", «to» := none, current := some "true",
             description := none },
           expEng, expOps] ∧
        p2.experience[0]? =
          some { id := "n2", title := some "CTO", company := some "Hooli", location := some "Goa",
                 «from» := some "2023-01-01", «to» := none, current := none,
                 description := some "all of it" } ∧
        p2 = { profileU1 with experience := p2.experience }) ∧
    (∃ p2, (putEducation "u1" "n2" bodyEdu2 (putEducation "u1" "n1" bodyEdu sampleStore).1).2 =
          Response.json p2 ∧
        findOne (putEducation "u1" "n2" bodyEdu2
          (putEducation "u1" "n1" bodyEdu sampleStore).1).1.profiles "u1" = some p2 ∧
        p2.education =
          [{ id := "n2", school := some "TIFR", degree := some "PostDoc",
             fieldofstudy := some "Theory", «from» := some "2024-08-01", «to» := none,
             current := none, description := none },
           { id := "n1", school := some "IISc", degree := some "PhD", fieldofstudy := some "ML",
             «from» := some "2020-08-01", «to» := none, current := none, description := none },
           eduBsc, eduMsc] ∧
        p2.education[0]? =
          some { id := "n2", school := some "TIFR", degree := some "PostDoc",
                 fieldofstudy := some "Theory", «from» := some "2024-08-01", «to» := none,
                 current := none, description := none } ∧
        p2 = { profileU1 with education := p2.education }) :=
  have hp : findOne sampleStore.profiles "u1" = some profileU1 := by decide
  have h1 : validationResult (experienceChecks bodyExp) = [] := by decide
  have h2 : validationResult (experienceChecks bodyExp2) = [] := by decide
  have h3 : validationResult (educationChecks bodyEdu) = [] := by decide
  have h4 : validationResult (educationChecks bodyEdu2) = [] := by decide
  ⟨hp, h1, h2, h3, h4,
    (put_twice_prepends_newest_first "u1" "n1" "n2" sampleStore profileU1 hp).1
      bodyExp bodyExp2 h1 h2,
    (put_twice_prepends_newest_first "u1" "n1" "n2" sampleStore profileU1 hp).2
      bodyEdu bodyEdu2 h3 h4⟩

/-- Claim C9 (add/remove round trip): on an existing profile, `PUT /experience` with
a valid body followed by `DELETE /experience/:exp_id` with the identifier given to
the new entry answers with, and stores, a profile whose experience sequence is the
one before the two calls (empty when it was empty); the profile and the profiles
collection are as before. The same holds for `PUT /education` followed by
`DELETE /education/:edu_id`. -/
theorem put_then_delete_restores_sequence (uid freshId : String) (s : Store) (p : Profile)
    (hp : findOne s.profiles uid = some p) :
    (∀ b : ExperienceBody, validationResult (experienceChecks b) = [] →
      ∃ p2, (deleteExperience uid freshId (putExperience uid freshId b s).1).2 = Response.json p2 ∧
        findOne (deleteExperience uid freshId (putExperience uid freshId b s).1).1.profiles uid =
          some p2 ∧
        p2.experience = p.experience ∧ (p.experience = [] → p2.experience = []) ∧ p2 = p ∧
        (deleteExperience uid freshId (putExperience uid freshId b s).1).1 = s) ∧
    (∀ b : EducationBody, validationResult (educationChecks b) = [] →
      ∃ p2, (deleteEducation uid freshId (putEducation uid freshId b s).1).2 = Response.json p2 ∧
        findOne (deleteEducation uid freshId (putEducation uid freshId b s).1).1.profiles uid =
          some p2 ∧
        p2.education = p.education ∧ (p.education = [] → p2.education = []) ∧ p2 = p ∧
        (deleteEducation uid freshId (putEducation uid freshId b s).1).1 = s) := by
  have hu := findOne_user _ _ _ hp
  constructor
  · intro b hv
    have e1 := putExperience_ok uid freshId b s p hp hv
    have hp1 : findOne (putExperience uid freshId b s).1.profiles uid =
        some { p with experience := newExp freshId b :: p.experience } := by
      rw [e1]
      exact findOne_saveLoaded _ _ p _ hp hu
    have hs := splice_indexOf_present Experience.id freshId [] p.experience (newExp freshId b)
      rfl (by simp)
    simp only [List.nil_append] at hs
    have hd : deleteExperience uid freshId (putExperience uid freshId b s).1 = (s, Response.json p) := by
      simp only [deleteExperience, hp1]
      rw [hs, e1]
      simp only [saveLoaded]
      have hcollapse := updateFirst_updateFirst uid
        ({ p with experience := newExp freshId b :: p.experience } : Profile) p hu s.profiles
      rw [hcollapse]
      have hsame := updateFirst_same uid s.profiles p hp
      exact congrArg (fun ps => ((⟨ps, s.users⟩ : Store), Response.json p)) hsame
    refine ⟨p, ?_, ?_, rfl, fun h => h, rfl, ?_⟩
    · rw [hd]
    · rw [hd]; exact hp
    · rw [hd]
  · intro b hv
    have e1 := putEducation_ok uid freshId b s p hp hv
    have hp1 : findOne (putEducation uid freshId b s).1.profiles uid =
        some { p with education := newEdu freshId b :: p.education } := by
      rw [e1]
      exact findOne_saveLoaded _ _ p _ hp hu
    have hs := splice_indexOf_present Education.id freshId [] p.education (newEdu freshId b)
      rfl (by simp)
    simp only [List.nil_append] at hs
    have hd : deleteEducation uid freshId (putEducation uid freshId b s).1 = (s, Response.json p) := by
      simp only [deleteEducation, hp1]
      rw [hs, e1]
      simp only [saveLoaded]
      have hcollapse := updateFirst_updateFirst uid
        ({ p with education := newEdu freshId b :: p.education } : Profile) p hu s.profiles
      rw [hcollapse]
      have hsame := updateFirst_same uid s.profiles p hp
      exact congrArg (fun ps => ((⟨ps, s.users⟩ : Store), Response.json p)) hsame
    refine ⟨p, ?_, ?_, rfl, fun h => h, rfl, ?_⟩
    · rw [hd]
    · rw [hd]; exact hp
    · rw [hd]

/-- Claim C9 at user `u2` of the sample store, whose two sequences are empty. -/
theorem put_then_delete_restores_sequence_witness :
    findOne sampleStore.profiles "u2" = some profileU2 ∧
    validationResult (experienceChecks bodyExp) = [] ∧
    validationResult (educationChecks bodyEdu) = [] ∧
    (∃ p2, (deleteExperience "u2" "n1" (putExperience "u2" "n1" bodyExp sampleStore).1).2 =
          Response.json p2 ∧
        findOne (deleteExperience "u2" "n1"
          (putExperience "u2" "n1" bodyExp sampleStore).1).1.profiles "u2" = some p2 ∧
        p2.experience = [] ∧ (profileU2.experience = [] → p2.experience = []) ∧ p2 = profileU2 ∧
        (deleteExperience "u2" "n1" (putExperience "u2" "n1" bodyExp sampleStore).1).1 =
          sampleStore) ∧
    (∃ p2, (deleteEducation "u2" "n1" (putEducation "u2" "n1" bodyEdu sampleStore).1).2 =
          Response.json p2 ∧
        findOne (deleteEducation "u2" "n1"
          (putEducation "u2" "n1" bodyEdu sampleStore).1).1.profiles "u2" = some p2 ∧
        p2.education = [] ∧ (profileU2.education = [] → p2.education = []) ∧ p2 = profileU2 ∧
        (deleteEducation "u2" "n1" (putEducation "u2" "n1" bodyEdu sampleStore).1).1 =
          sampleStore) :=
  have hp : findOne sampleStore.profiles "u2" = some profileU2 := by decide
  have h1 : validationResult (experienceChecks bodyExp) = [] := by decide
  have h3 : validationResult (educationChecks bodyEdu) = [] := by decide
  ⟨hp, h1, h3,
    (put_then_delete_restores_sequence "u2" "n1" sampleStore profileU2 hp).1 bodyExp h1,
    (put_then_delete_restores_sequence "u2" "n1" sampleStore profileU2 hp).2 bodyEdu h3⟩

/-! ## Handlers on a caller without a profile -/

/-- Claim C10: for a caller without a profile, `PUT /experience` and `PUT /education`
with a body that passes validation, `DELETE /experience/:exp_id` and
`DELETE /education/:edu_id` each answer status 500 with the text `Server Error` and
return the store they were given. -/
theorem no_profile_yields_server_error (uid : String) (s : Store)
    (hnone : findOne s.profiles uid = none) :
    (∀ (freshId : String) (b : ExperienceBody), validationResult (experienceChecks b) = [] →
      putExperience uid freshId b s = (s, Response.send 500 "Server Error")) ∧
    (∀ (freshId : String) (b : EducationBody), validationResult (educationChecks b) = [] →
      putEducation uid freshId b s = (s, Response.send 500 "Server Error")) ∧
    (∀ expId : String, deleteExperience uid expId s = (s, Response.send 500 "Server Error")) ∧
    (∀ eduId : String, deleteEducation uid eduId s = (s, Response.send 500 "Server Error")) := by
  refine ⟨?_, ?_, ?_, ?_⟩
  · intro freshId b hv
    simp [putExperience, hv, hnone, serverError]
  · intro freshId b hv
    simp [putEducation, hv, hnone, serverError]
  · intro expId
    simp [deleteExperience, hnone, serverError]
  · intro eduId
    simp [deleteEducation, hnone, serverError]

/-- Claim C10 at user `u3` of the sample store, who has no profile. -/
theorem no_profile_yields_server_error_witness :
    findOne sampleStore.profiles "u3" = none ∧
    validationResult (experienceChecks bodyExp) = [] ∧
    validationResult (educationChecks bodyEdu) = [] ∧
    putExperience "u3" "n1" bodyExp sampleStore = (sampleStore, Response.send 500 "Server Error") ∧
    putEducation "u3" "n1" bodyEdu sampleStore = (sampleStore, Response.send 500 "Server Error") ∧
    deleteExperience "u3" "e1" sampleStore = (sampleStore, Response.send 500 "Server Error") ∧
    deleteEducation "u3" "d1" sampleStore = (sampleStore, Response.send 500 "Server Error") :=
  have hn : findOne sampleStore.profiles "u3" = none := by decide
  have h1 : validationResult (experienceChecks bodyExp) = [] := by decide
  have h3 : validationResult (educationChecks bodyEdu) = [] := by decide
  ⟨hn, h1, h3,
    (no_profile_yields_server_error "u3" sampleStore hn).1 "n1" bodyExp h1,
    (no_profile_yields_server_error "u3" sampleStore hn).2.1 "n1" bodyEdu h3,
    (no_profile_yields_server_error "u3" sampleStore hn).2.2.1 "e1",
    (no_profile_yields_server_error "u3" sampleStore hn).2.2.2 "d1"⟩

/-! ## Lemmas on the string primitives -/

theorem splitAux_ne_nil (sep : Char) (cs acc : List Char) : splitAux sep cs acc ≠ [] := by
  induction cs generalizing acc with
  | nil => simp [splitAux]
  | cons c cs ih =>
    by_cases hc : c = sep
    · simp [splitAux, hc]
    · simpa [splitAux, hc] using ih (c :: acc)

theorem splitAux_length (sep : Char) (cs acc : List Char) :
    (splitAux sep cs acc).length = cs.count sep + 1 := by
  induction cs generalizing acc with
  | nil => simp [splitAux]
  | cons c cs ih =>
    by_cases hc : c = sep
    · simp [splitAux, hc, ih []]
    · simp [splitAux, hc, ih (c :: acc), List.count_cons]

theorem splitAux_no_sep (sep : Char) (cs acc : List Char) (hacc : sep ∉ acc) :
    ∀ seg ∈ splitAux sep cs acc, sep ∉ seg := by
  induction cs generalizing acc with
  | nil =>
    intro seg hseg
    have : seg = acc.reverse := by simpa [splitAux] using hseg
    simpa [this] using hacc
  | cons c cs ih =>
    intro seg hseg
    by_cases hc : c = sep
    · simp only [splitAux, hc, if_true, List.mem_cons] at hseg
      rcases hseg with h | h
      · simpa [h] using hacc
      · exact ih [] (by simp) seg h
    · simp only [splitAux, hc, if_false] at hseg
      refine ih (c :: acc) ?_ seg hseg
      intro hm
      rcases List.mem_cons.mp hm with h | h
      · exact hc h.symm
      · exact hacc h

theorem joinWith_cons (sep : Char) (seg : List Char) (rest : List (List Char)) (h : rest ≠ []) :
    joinWith sep (seg :: rest) = seg ++ sep :: joinWith sep rest := by
  cases rest with
  | nil => exact absurd rfl h
  | cons next more => rfl

theorem joinWith_splitAux (sep : Char) (cs acc : List Char) :
    joinWith sep (splitAux sep cs acc) = acc.reverse ++ cs := by
  induction cs generalizing acc with
  | nil => simp [splitAux, joinWith]
  | cons c cs ih =>
    by_cases hc : c = sep
    · simp only [splitAux, hc, if_true]
      rw [joinWith_cons sep _ _ (splitAux_ne_nil sep cs []), ih []]
      simp
    · simp only [splitAux, hc, if_false]
      rw [ih (c :: acc)]
      simp

theorem splitAux_isSegmentsOf (sep : Char) (cs : List Char) :
    IsSegmentsOf sep cs (splitAux sep cs []) :=
  ⟨splitAux_ne_nil sep cs [], splitAux_no_sep sep cs [] (by simp), by simp [joinWith_splitAux]⟩

theorem trimChars_isTrimOf (cs : List Char) : IsTrimOf cs (trimChars cs) := by
  have hfront : cs = cs.takeWhile isWhiteSpace ++ cs.dropWhile isWhiteSpace :=
    (List.takeWhile_append_dropWhile isWhiteSpace cs).symm
  have hback : cs.dropWhile isWhiteSpace =
      trimChars cs ++ ((cs.dropWhile isWhiteSpace).reverse.takeWhile isWhiteSpace).reverse := by
    have h := List.takeWhile_append_dropWhile isWhiteSpace (cs.dropWhile isWhiteSpace).reverse
    have h2 := congrArg List.reverse h
    simp only [List.reverse_append, List.reverse_reverse] at h2
    exact h2.symm
  have hpre : trimChars cs <+: cs.dropWhile isWhiteSpace := ⟨_, hback.symm⟩
  refine ⟨cs.takeWhile isWhiteSpace,
    ((cs.dropWhile isWhiteSpace).reverse.takeWhile isWhiteSpace).reverse, ?_, ?_, ?_, ?_, ?_⟩
  · rw [List.append_assoc, ← hback]
    exact hfront
  · intro c hc
    exact List.mem_takeWhile_imp hc
  · intro c hc
    exact List.mem_takeWhile_imp (List.mem_reverse.mp hc)
  · intro c hc
    have hne : trimChars cs ≠ [] := by
      intro h
      simp [h] at hc
    have hdne : cs.dropWhile isWhiteSpace ≠ [] := by
      intro h
      rw [h] at hpre
      exact hne (List.prefix_nil.mp hpre)
    have h1 : (trimChars cs).head hne = (cs.dropWhile isWhiteSpace).head hdne :=
      List.IsPrefix.head hpre hne
    have h2 : c = (trimChars cs).head hne := by
      rw [List.head?_eq_head hne] at hc
      exact (Option.some.inj hc).symm
    rw [h2, h1]
    exact List.head_dropWhile_not isWhiteSpace cs hdne
  · intro c hc
    have hne : List.rdropWhile isWhiteSpace (cs.dropWhile isWhiteSpace) ≠ [] := by
      intro h
      have : trimChars cs = [] := h
      simp [this] at hc
    have h1 := List.rdropWhile_last_not isWhiteSpace (cs.dropWhile isWhiteSpace) hne
    have h2 : (trimChars cs).getLast? =
        some ((List.rdropWhile isWhiteSpace (cs.dropWhile isWhiteSpace)).getLast hne) :=
      List.getLast?_eq_getLast _ hne
    rw [h2] at hc
    rw [← Option.some.inj hc]
    simpa using h1

/-- The skills sequence computed on line 55, related to the wording of the law. -/
theorem split_trim_spec (sk : String) :
    ((split sk ',').map (fun skill => trim skill)).length = sk.data.count ',' + 1 ∧
    ∃ segs, IsSegmentsOf ',' sk.data segs ∧
      List.Forall₂ (fun seg (t : String) => IsTrimOf seg t.data) segs
        ((split sk ',').map (fun skill => trim skill)) := by
  constructor
  · simp [split, splitAux_length]
  · refine ⟨splitAux ',' sk.data [], splitAux_isSegmentsOf ',' sk.data, ?_⟩
    simp only [split, List.map_map]
    rw [List.forall₂_map_right_iff, List.forall₂_same]
    intro seg _
    exact trimChars_isTrimOf seg

/-! ## `POST /` -/

theorem setFields_user (f : ProfileFields) (p : Profile) : (setFields f p).user = f.user := rfl

theorem filter_user_of_findOne_none (ps : List Profile) (uid : String)
    (h : findOne ps uid = none) : ps.filter (fun q => q.user = uid) = [] := by
  rw [List.filter_eq_nil_iff]
  intro q hq
  have := List.find?_eq_none.mp h q hq
  simpa using this

theorem findOne_append_new (ps : List Profile) (uid : String) (np : Profile)
    (h : findOne ps uid = none) (hu : np.user = uid) : findOne (ps ++ [np]) uid = some np := by
  have h2 : List.find? (fun p => decide (p.user = uid)) ps = none := h
  simp [findOne, List.find?_append, h2, hu]

/-- What `POST /` answers and stores for a body that passes validation, on both
branches. -/
theorem postProfile_ok (uid : String) (body : ProfileBody) (s : Store)
    (hv : validationResult (profileChecks body) = []) :
    ∃ p1, (postProfile uid body s).2 = Response.json p1 ∧
      findOne (postProfile uid body s).1.profiles uid = some p1 ∧
      p1.skills = (profileFields uid body).skills.getD
        ((findOne s.profiles uid).elim [] (fun p => p.skills)) := by
  cases hp : findOne s.profiles uid with
  | none =>
    refine ⟨newProfile (profileFields uid body), ?_, ?_, ?_⟩
    · simp [postProfile, hv, hp]
    · simp only [postProfile, hv, hp, List.isEmpty_nil, Bool.not_true, Bool.false_eq_true, if_false]
      exact findOne_append_new _ _ _ hp rfl
    · simp [newProfile]
  | some p =>
    refine ⟨setFields (profileFields uid body) p, ?_, ?_, ?_⟩
    · simp [postProfile, hv, hp]
    · simp only [postProfile, hv, hp, List.isEmpty_nil, Bool.not_true, Bool.false_eq_true, if_false]
      rw [findOne_updateFirst uid _ (fun _ _ => rfl), hp]
      rfl
    · simp [setFields]

/-- Claim C4 (split-trim law): for a body that passes validation and carries the
skills string `sk`, the profile that `POST /` answers with and stores (created or
updated) has as skills the segments of `sk` between commas, in order, each trimmed
of white space at both ends; their number is the number of commas of `sk` plus 1;
for `"a, b ,c"` they are `["a", "b", "c"]`. -/
theorem post_writes_split_trimmed_skills (uid : String) (body : ProfileBody) (sk : String)
    (s : Store) (hs : body.skills = some sk)
    (hv : validationResult (profileChecks body) = []) :
    ∃ p1, (postProfile uid body s).2 = Response.json p1 ∧
      findOne (postProfile uid body s).1.profiles uid = some p1 ∧
      p1.skills = (split sk ',').map (fun skill => trim skill) ∧
      p1.skills.length = sk.data.count ',' + 1 ∧
      (∃ segs, IsSegmentsOf ',' sk.data segs ∧
        List.Forall₂ (fun seg (t : String) => IsTrimOf seg t.data) segs p1.skills) ∧
      (sk = "a, b ,c" → p1.skills = ["a", "b", "c"]) := by
  obtain ⟨p1, hresp, hfind, hskills⟩ := postProfile_ok uid body s hv
  have hsk : p1.skills = (split sk ',').map (fun skill => trim skill) := by
    rw [hskills]
    simp [profileFields, hs]
  refine ⟨p1, hresp, hfind, hsk, ?_, ?_, ?_⟩
  · rw [hsk]
    exact (split_trim_spec sk).1
  · rw [hsk]
    exact (split_trim_spec sk).2
  · intro h
    rw [hsk, h]
    decide

/-- Claim C4 at the sample body, whose skills string is `"a, b ,c"`, posted by user
`u3`, who has no profile yet. -/
theorem post_writes_split_trimmed_skills_witness :
    bodyMinimal.skills = some "a, b ,c" ∧
    validationResult (profileChecks bodyMinimal) = [] ∧
    ∃ p1, (postProfile "u3" bodyMinimal sampleStore).2 = Response.json p1 ∧
      findOne (postProfile "u3" bodyMinimal sampleStore).1.profiles "u3" = some p1 ∧
      p1.skills = (split "a, b ,c" ',').map (fun skill => trim skill) ∧
      p1.skills.length = "a, b ,c".data.count ',' + 1 ∧
      (∃ segs, IsSegmentsOf ',' "a, b ,c".data segs ∧
        List.Forall₂ (fun seg (t : String) => IsTrimOf seg t.data) segs p1.skills) ∧
      ("a, b ,c" = "a, b ,c" → p1.skills = ["a", "b", "c"]) :=
  have hs : bodyMinimal.skills = some "a, b ,c" := by decide
  have hv : validationResult (profileChecks bodyMinimal) = [] := by decide
  ⟨hs, hv, post_writes_split_trimmed_skills "u3" bodyMinimal "a, b ,c" sampleStore hs hv⟩

/-- Claim C5, evaluated on the code: user `u1` has a profile with the social links
`youtube` and `twitter` set; `POST /` with a valid body that supplies only `status`
and `skills` answers with, and stores, a profile whose `social` record is empty: the
two links are cleared, because `profileFields.social` is always assigned and `$set`
replaces the whole record. The unsupplied scalar fields (`handle`, `company`,
`location`, `githubusername`) keep their values. -/
theorem post_update_clears_unsupplied_social :
    findOne sampleStore.profiles "u1" = some profileU1 ∧
    validationResult (profileChecks bodyMinimal) = [] ∧
    bodyMinimal.youtube = none ∧ bodyMinimal.twitter = none ∧
    profileU1.social.youtube = some "yt/alice" ∧ profileU1.social.twitter = some "tw/alice" ∧
    (postProfile "u1" bodyMinimal sampleStore).2 =
      Response.json { profileU1 with
        skills := ["a", "b", "c"]
        social := { youtube := none, twitter := none, facebook := none, linkedin := none,
                    instagram := none } } ∧
    findOne (postProfile "u1" bodyMinimal sampleStore).1.profiles "u1" =
      some { profileU1 with
        skills := ["a", "b", "c"]
        social := { youtube := none, twitter := none, facebook := none, linkedin := none,
                    instagram := none } } := by
  decide

/-- On the update branch every scalar field the body does not supply keeps its
value, and the `social` record becomes exactly the supplied links. -/
theorem postProfile_update_fields (uid : String) (body : ProfileBody) (s : Store) (p : Profile)
    (hp : findOne s.profiles uid = some p)
    (hv : validationResult (profileChecks body) = []) :
    ∃ p1, (postProfile uid body s).2 = Response.json p1 ∧
      (truthy body.handle = false → p1.handle = p.handle) ∧
      (truthy body.company = false → p1.company = p.company) ∧
      (truthy body.website = false → p1.website = p.website) ∧
      (truthy body.location = false → p1.location = p.location) ∧
      (truthy body.bio = false → p1.bio = p.bio) ∧
      (truthy body.githubusername = false → p1.githubusername = p.githubusername) ∧
      p1.experience = p.experience ∧ p1.education = p.education ∧
      p1.social = { youtube := pick body.youtube, twitter := pick body.twitter,
                    facebook := pick body.facebook, linkedin := pick body.linkedin,
                    instagram := pick body.instagram } := by
  refine ⟨setFields (profileFields uid body) p, ?_, ?_, ?_, ?_, ?_, ?_, ?_, rfl, rfl, rfl⟩
  · simp [postProfile, hv, hp]
  all_goals
    intro h
    simp [setFields, profileFields, pick, h]

/-- Claim C6: for a caller `uid` without a profile and a body that passes
validation, `POST /` answers with a new profile whose user reference is `uid`
(whatever the body holds) and stores it: afterwards the profiles of `uid` are
exactly that one profile, the profiles of every other user are the ones from before,
and the users collection is the one from before. -/
theorem post_creates_one_profile_for_caller (uid : String) (body : ProfileBody) (s : Store)
    (hnone : findOne s.profiles uid = none)
    (hv : validationResult (profileChecks body) = []) :
    ∃ np, (postProfile uid body s).2 = Response.json np ∧
      np.user = uid ∧
      (postProfile uid body s).1.profiles = s.profiles ++ [np] ∧
      (postProfile uid body s).1.profiles.filter (fun q => q.user = uid) = [np] ∧
      findOne (postProfile uid body s).1.profiles uid = some np ∧
      (∀ v, v ≠ uid → (postProfile uid body s).1.profiles.filter (fun q => q.user = v) =
        s.profiles.filter (fun q => q.user = v)) ∧
      (postProfile uid body s).1.users = s.users ∧
      np = newProfile (profileFields uid body) := by
  have hpost : postProfile uid body s =
      ({ s with profiles := s.profiles ++ [newProfile (profileFields uid body)] },
        Response.json (newProfile (profileFields uid body))) := by
    simp [postProfile, hv, hnone]
  have hu : (newProfile (profileFields uid body)).user = uid := rfl
  refine ⟨newProfile (profileFields uid body), ?_, hu, ?_, ?_, ?_, ?_, ?_, rfl⟩
  · rw [hpost]
  · rw [hpost]
  · rw [hpost]
    simp only [List.filter_append, filter_user_of_findOne_none _ _ hnone, List.nil_append]
    simp [List.filter, hu]
  · rw [hpost]
    exact findOne_append_new _ _ _ hnone hu
  · intro v hvne
    rw [hpost]
    have hne : ¬ (newProfile (profileFields uid body)).user = v := by
      rw [hu]
      exact fun h => hvne h.symm
    simp [List.filter_append, List.filter, hne]
  · rw [hpost]

/-- Claim C6 at user `u3` of the sample store, who has no profile, with a body whose
`user` key names another user. -/
theorem post_creates_one_profile_for_caller_witness :
    findOne sampleStore.profiles "u3" = none ∧
    validationResult (profileChecks bodyMinimal) = [] ∧
    bodyMinimal.user = some "u2" ∧
    ∃ np, (postProfile "u3" bodyMinimal sampleStore).2 = Response.json np ∧
      np.user = "u3" ∧
      (postProfile "u3" bodyMinimal sampleStore).1.profiles = sampleStore.profiles ++ [np] ∧
      (postProfile "u3" bodyMinimal sampleStore).1.profiles.filter (fun q => q.user = "u3") = [np] ∧
      findOne (postProfile "u3" bodyMinimal sampleStore).1.profiles "u3" = some np ∧
      (∀ v, v ≠ "u3" →
        (postProfile "u3" bodyMinimal sampleStore).1.profiles.filter (fun q => q.user = v) =
        sampleStore.profiles.filter (fun q => q.user = v)) ∧
      (postProfile "u3" bodyMinimal sampleStore).1.users = sampleStore.users ∧
      np = newProfile (profileFields "u3" bodyMinimal) :=
  have hn : findOne sampleStore.profiles "u3" = none := by decide
  have hv : validationResult (profileChecks bodyMinimal) = [] := by decide
  ⟨hn, hv, by decide, post_creates_one_profile_for_caller "u3" bodyMinimal sampleStore hn hv⟩

/-! ## `GET /user/:user_id` -/

/-- The answers of `GET /user/:user_id` for a well-formed identifier: status 400
`Profile not found` when no profile matches, status 500 on a store failure whose
`kind` is not `ObjectID`, the found profile with its owner otherwise. -/
theorem getProfileByUserId_wellFormed (userId : String) (s : Store)
    (hw : isObjectIdString userId = true) :
    (findOne s.profiles userId = none →
      getProfileByUserId none userId s = LookupResponse.jsonMsg 400 "Profile not found") ∧
    (∀ err : StoreError, err.kind ≠ some "ObjectID" →
      getProfileByUserId (some err) userId s = LookupResponse.send 500 "Server Error") ∧
    (∀ p : Profile, findOne s.profiles userId = some p →
      getProfileByUserId none userId s =
        LookupResponse.json p
          ((s.users.find? (fun u => u.id = p.user)).map (fun u => (u.name, u.avatar)))) := by
  refine ⟨?_, ?_, ?_⟩
  · intro h
    simp [getProfileByUserId, findOnePopulated, hw, h]
  · intro err h
    simp [getProfileByUserId, findOnePopulated, hw, h]
  · intro p h
    simp [getProfileByUserId, findOnePopulated, hw, h]

/-- The answer of `GET /user/:user_id` for a malformed identifier, whatever the
store holds: the cast error has kind `ObjectId`, the handler compares with
`ObjectID`, and the answer is status 500. -/
theorem getProfileByUserId_malformed (fault : Option StoreError) (userId : String) (s : Store)
    (hw : isObjectIdString userId = false) :
    getProfileByUserId fault userId s = LookupResponse.send 500 "Server Error" := by
  simp [getProfileByUserId, findOnePopulated, hw, castError]

/-- Claim C8, evaluated on the code: `GET /user/xyz`, with an identifier the store
layer cannot cast, is answered status 500 `Server Error`, because the cast error
carries the kind `ObjectId` while line 116 compares with `ObjectID`. A well-formed
identifier without a profile is answered status 400 `Profile not found`, so the two
answers differ. -/
theorem get_by_malformed_id_answers_500 :
    isObjectIdString "xyz" = false ∧
    findOnePopulated none sampleStore "xyz" =
      Except.error { kind := some "ObjectId", message := "Cast to ObjectId failed" } ∧
    getProfileByUserId none "xyz" sampleStore = LookupResponse.send 500 "Server Error" ∧
    isObjectIdString "5f1a2b3c4d5e6f7a8b9c0d1e" = true ∧
    findOne sampleStore.profiles "5f1a2b3c4d5e6f7a8b9c0d1e" = none ∧
    getProfileByUserId none "5f1a2b3c4d5e6f7a8b9c0d1e" sampleStore =
      LookupResponse.jsonMsg 400 "Profile not found" ∧
    getProfileByUserId none "xyz" sampleStore ≠
      getProfileByUserId none "5f1a2b3c4d5e6f7a8b9c0d1e" sampleStore := by
  refine ⟨by decide, rfl, by decide, by decide, by decide, by decide, by decide⟩

/-! ## `DELETE /` -/

/-- Claim C7, evaluated on the code: the name `User` is bound nowhere in the module
(line 9 binds `user`), so for every caller identifier the handler removes the
caller's profile, throws on `User`, and answers status 500 `Server Error` with the
users collection untouched; without `req.user` (the route has no auth gate) it
throws before removing anything. In the sample store, user `u1` loses the profile,
keeps the user record, and gets no confirmation message. -/
theorem delete_account_keeps_user_and_answers_500 :
    moduleScope "User" = none ∧
    (∀ (id : String) (s : Store), deleteAccount (some id) s =
      ({ s with profiles := removeFirst (fun p => p.user = id) s.profiles },
        Response.send 500 "Server Error")) ∧
    (∀ s : Store, deleteAccount none s = (s, Response.send 500 "Server Error")) ∧
    (deleteAccount (some "u1") sampleStore).2 ≠ Response.jsonMsg 200 "User Removed" ∧
    findOne (deleteAccount (some "u1") sampleStore).1.profiles "u1" = none ∧
    (deleteAccount (some "u1") sampleStore).1.users.find? (fun u => u.id = "u1") =
      some { id := "u1", name := "Alice", avatar := "a.png" } := by
  refine ⟨by decide, ?_, ?_, by decide, by decide, by decide⟩
  · intro id s
    rfl
  · intro s
    rfl

end DevConnecter
